import Mathlib

/-!
Verification of the data pipeline of the hospital-stay dashboard
(`src/app.py`): loading and cleaning the length-of-stay column,
filtering by age group and stay range, and the aggregate metrics.

Length-of-stay values are modelled as unbounded naturals: after the
cleaning step the column holds only digit strings, which pandas parses
as (arbitrary precision, for realistic data) integers.
-/

namespace HospitalStay

/-- `df['Length of Stay'].astype(str).str.replace(r'[^0-9]', '', regex=True)`:
keep exactly the digit characters of the string, in source order. -/
def keepDigits (s : String) : String :=
  ⟨s.data.filter Char.isDigit⟩

/-- Numeric value of a single digit character. -/
def digitVal (c : Char) : Nat :=
  c.toNat - Char.toNat '0'

/-- Base-10 value of a digit string (digits read in source order). -/
def parseDigits (s : String) : Nat :=
  s.data.foldl (fun a c => a * 10 + digitVal c) 0

/-- `pd.to_numeric(col, errors='coerce')` as it acts on the cleaned column:
after the regex replace every cell is a (possibly empty) digit string; the
empty string coerces to NaN (`none`) and a non-empty digit string to its
integer value.  A string with a non-digit character also coerces to NaN,
which the model reflects with the `all Char.isDigit` guard. -/
def toNumericCoerce (s : String) : Option Nat :=
  if s.data ≠ [] ∧ s.data.all Char.isDigit then some (parseDigits s) else none

/-- The whole per-cell cleaning of the length-of-stay field: strip
non-digits, then coerce to numeric. -/
def cleanValue (s : String) : Option Nat :=
  toNumericCoerce (keepDigits s)

/-- One raw CSV row, restricted to the four columns the app uses.
The length-of-stay field is free text (it may carry a `+` suffix,
spaces, or no digits at all). -/
structure RawRecord where
  lengthOfStay : String
  ageGroup : String
  gender : String
  typeOfAdmission : String
deriving Repr, DecidableEq

/-- A row after `pd.to_numeric(..., errors='coerce')`: the length-of-stay
cell is numeric or NaN (`none`). -/
structure NumRecord where
  lengthOfStay : Option Nat
  ageGroup : String
  gender : String
  typeOfAdmission : String
deriving Repr, DecidableEq

/-- A cleaned row: the length-of-stay is a valid number. -/
structure Record where
  lengthOfStay : Nat
  ageGroup : String
  gender : String
  typeOfAdmission : String
deriving Repr, DecidableEq

/-- The regex-replace step applied to the whole column
(`df['Length of Stay'] = df['Length of Stay'].astype(str).str.replace(...)`). -/
def cleanColumn (rows : List RawRecord) : List RawRecord :=
  rows.map fun r => { r with lengthOfStay := keepDigits r.lengthOfStay }

/-- The coercion step applied to the whole column
(`df['Length of Stay'] = pd.to_numeric(df['Length of Stay'], errors='coerce')`). -/
def coerceColumn (rows : List RawRecord) : List NumRecord :=
  rows.map fun r =>
    { lengthOfStay := toNumericCoerce r.lengthOfStay
      ageGroup := r.ageGroup
      gender := r.gender
      typeOfAdmission := r.typeOfAdmission }

/-- `df.dropna(subset=['Length of Stay'])`: keep exactly the rows whose
length-of-stay coerced successfully, in order. -/
def dropnaLengthOfStay (rows : List NumRecord) : List Record :=
  rows.filterMap fun r =>
    r.lengthOfStay.map fun v =>
      { lengthOfStay := v
        ageGroup := r.ageGroup
        gender := r.gender
        typeOfAdmission := r.typeOfAdmission }

/-- `load_data` of `src/app.py`, minus the file read: clean the
length-of-stay column, coerce it to numeric, and drop the NaN rows. -/
def load_data (rows : List RawRecord) : List Record :=
  dropnaLengthOfStay (coerceColumn (cleanColumn rows))

/-- `Series.between(lo, hi)`: inclusive on both endpoints (pandas default). -/
def betweenStay (x lo hi : Nat) : Bool :=
  decide (lo ≤ x) && decide (x ≤ hi)

/-- `filtered_df = df[(df["Age Group"].isin(age_groups)) &
(df["Length of Stay"].between(stay_range[0], stay_range[1]))]`. -/
def filtered_df (df : List Record) (lo hi : Nat) (ageGroups : List String) :
    List Record :=
  df.filter fun r => ageGroups.contains r.ageGroup && betweenStay r.lengthOfStay lo hi

/-- The length-of-stay column of a cleaned dataset. -/
def stays (df : List Record) : List Nat :=
  df.map Record.lengthOfStay

/-- `df["Length of Stay"].min()` on a non-empty column; on an empty column
pandas returns NaN and the `int(...)` around it raises, which `runApp`
models as an error before this default 0 is ever shown. -/
def colMin : List Nat → Nat
  | [] => 0
  | x :: xs => xs.foldl Nat.min x

/-- `df["Length of Stay"].max()`, same conventions as `colMin`. -/
def colMax : List Nat → Nat
  | [] => 0
  | x :: xs => xs.foldl Nat.max x

/-- `df["Age Group"].unique()` (pandas keeps first occurrences, in order). -/
def pdUnique (l : List String) : List String :=
  l.foldl (fun acc x => if x ∈ acc then acc else acc ++ [x]) []

/-- `filtered_df['Length of Stay'].mean()`: NaN (`none`) on an empty view,
otherwise the arithmetic mean as an exact rational. -/
def meanStay (df : List Record) : Option ℚ :=
  if df.length = 0 then none
  else some (((stays df).sum : ℚ) / (df.length : ℚ))

/-- `long_stays = len(filtered_df[filtered_df['Length of Stay'] > 10])`:
strictly more than 10 days. -/
def long_stays (fdf : List Record) : Nat :=
  (fdf.filter fun r => decide (10 < r.lengthOfStay)).length

/-- `pct = (len(filtered_df) / len(df)) * 100`.  When `df` is empty the
Python line would raise ZeroDivisionError, but `runApp` already failed
at `int(df[...].min())` in that case, so the rational convention
`x / 0 = 0` is never observed. -/
def pct (fdf df : List Record) : ℚ :=
  ((fdf.length : ℚ) / (df.length : ℚ)) * 100

/-- The CSV file as `pd.read_csv` delivers it: the set of column names
present in the header, and the cell contents of the four columns the app
reads (a row's field is meaningful only when its column is present). -/
structure Csv where
  columns : List String
  rows : List RawRecord
deriving Repr, DecidableEq

/-- The scalar metrics the dashboard renders. -/
structure Metrics where
  avgStay : Option ℚ
  longStays : Nat
  totalRecords : Nat
  pctOfTotal : ℚ
deriving Repr, DecidableEq

/-- The top-level `try` block of `src/app.py`, reduced to the data
pipeline.  `file = none` stands for a missing/unreadable CSV
(`pd.read_csv` raises).  Accessing an absent column raises KeyError;
`int(df["Length of Stay"].min())` raises ValueError when no row survived
cleaning (the min of an empty column is NaN).  The `except` clause
renders whichever exception escaped as the single message
`st.error(...)`, modelled by the `Except.error` branch; an `Except.ok`
run renders the metrics.  `lo`, `hi` and `selectedAges` are the
user-chosen slider range and age-group multiselect. -/
def runApp (file : Option Csv) (lo hi : Nat) (selectedAges : List String) :
    Except String Metrics :=
  match file with
  | none => .error "Please check your CSV file. Error: FileNotFoundError"
  | some csv =>
    if "Length of Stay" ∈ csv.columns then
      let df := load_data csv.rows
      if df.length = 0 then
        .error "Please check your CSV file. Error: ValueError: cannot convert float NaN to integer"
      else if "Age Group" ∈ csv.columns then
        if "Type of Admission" ∈ csv.columns then
          if "Gender" ∈ csv.columns then
            let fdf := filtered_df df lo hi selectedAges
            .ok { avgStay := meanStay fdf
                  longStays := long_stays fdf
                  totalRecords := fdf.length
                  pctOfTotal := pct fdf df }
          else .error "Please check your CSV file. Error: KeyError: Gender"
        else .error "Please check your CSV file. Error: KeyError: Type of Admission"
      else .error "Please check your CSV file. Error: KeyError: Age Group"
    else .error "Please check your CSV file. Error: KeyError: Length of Stay"

/-- The record as `load_data` rebuilds it from a raw row whose
length-of-stay cleaned to `v`. -/
def rebuilt (r : RawRecord) (v : Nat) : Record :=
  { lengthOfStay := v
    ageGroup := r.ageGroup
    gender := r.gender
    typeOfAdmission := r.typeOfAdmission }

/-- The non-length-of-stay columns of a raw row. -/
def projRaw (r : RawRecord) : String × String × String :=
  (r.ageGroup, r.gender, r.typeOfAdmission)

/-- The non-length-of-stay columns of a cleaned row. -/
def projClean (r : Record) : String × String × String :=
  (r.ageGroup, r.gender, r.typeOfAdmission)

/-- A concrete well-formed CSV used to exercise the theorems. -/
def exCsv : Csv :=
  { columns := ["Length of Stay", "Age Group", "Gender", "Type of Admission"]
    rows := [{ lengthOfStay := "5+", ageGroup := "50 to 69", gender := "M",
               typeOfAdmission := "Emergency" }] }

/-- The cleaned row of `exCsv`. -/
def exRecord : Record :=
  { lengthOfStay := 5, ageGroup := "50 to 69", gender := "M",
    typeOfAdmission := "Emergency" }

section Helpers

theorem keepDigits_data (s : String) :
    (keepDigits s).data = s.data.filter Char.isDigit := rfl

theorem keepDigits_idem (s : String) : keepDigits (keepDigits s) = keepDigits s := by
  simp [keepDigits, List.filter_filter]

theorem keepDigits_all_digits (s : String) :
    (keepDigits s).data.all Char.isDigit = true := by
  rw [keepDigits_data, List.all_eq_true]
  intro c hc
  exact List.of_mem_filter hc

theorem keepDigits_ne_nil_iff (s : String) :
    (keepDigits s).data ≠ [] ↔ s.data.any Char.isDigit = true := by
  rw [keepDigits_data, List.any_eq_true]
  constructor
  · intro h
    rcases List.exists_mem_of_ne_nil _ h with ⟨c, hc⟩
    exact ⟨c, List.mem_of_mem_filter hc, List.of_mem_filter hc⟩
  · rintro ⟨c, hc, hd⟩ hnil
    exact absurd (List.mem_filter.mpr ⟨hc, hd⟩) (by simp [hnil])

theorem cleanValue_of_hasDigit (s : String) (h : s.data.any Char.isDigit = true) :
    cleanValue s = some (parseDigits (keepDigits s)) := by
  rw [cleanValue, toNumericCoerce, if_pos]
  exact ⟨(keepDigits_ne_nil_iff s).mpr h, keepDigits_all_digits s⟩

theorem cleanValue_of_noDigit (s : String) (h : ¬ s.data.any Char.isDigit = true) :
    cleanValue s = none := by
  rw [cleanValue, toNumericCoerce, if_neg]
  intro hc
  exact h ((keepDigits_ne_nil_iff s).mp hc.1)

theorem cleanValue_isSome_iff (s : String) :
    (cleanValue s).isSome = true ↔ s.data.any Char.isDigit = true := by
  constructor
  · intro h
    by_contra hd
    rw [cleanValue_of_noDigit s hd] at h
    simp at h
  · intro h
    rw [cleanValue_of_hasDigit s h]
    rfl

theorem cleanValue_keepDigits (s : String) :
    cleanValue (keepDigits s) = cleanValue s := by
  rw [cleanValue, cleanValue, keepDigits_idem]

theorem load_data_eq_filterMap (rows : List RawRecord) :
    load_data rows = rows.filterMap fun r =>
      (cleanValue r.lengthOfStay).map (rebuilt r) := by
  rw [load_data, cleanColumn, coerceColumn, dropnaLengthOfStay,
    List.filterMap_map, List.filterMap_map]
  rfl

theorem map_filterMap_sublist {α β γ : Type} (f : α → Option β) (g : β → γ)
    (h : α → γ) (H : ∀ a b, f a = some b → g b = h a) (l : List α) :
    ((l.filterMap f).map g).Sublist (l.map h) := by
  induction l with
  | nil => simp
  | cons a l ih =>
    cases hfa : f a with
    | none =>
      simp only [List.filterMap_cons, hfa, List.map_cons]
      exact ih.cons _
    | some b =>
      simp only [List.filterMap_cons, hfa, List.map_cons]
      rw [H a b hfa]
      exact ih.cons₂ _

theorem foldl_min_le (xs : List Nat) (a : Nat) :
    xs.foldl Nat.min a ≤ a ∧ ∀ x ∈ xs, xs.foldl Nat.min a ≤ x := by
  induction xs generalizing a with
  | nil => simp
  | cons y ys ih =>
    refine ⟨le_trans (ih (Nat.min a y)).1 (Nat.min_le_left a y), ?_⟩
    intro x hx
    rcases List.mem_cons.mp hx with h | h
    · subst h
      exact le_trans (ih (Nat.min a x)).1 (Nat.min_le_right a x)
    · exact (ih (Nat.min a y)).2 x h

theorem colMin_le_mem (l : List Nat) (x : Nat) (h : x ∈ l) : colMin l ≤ x := by
  cases l with
  | nil => cases h
  | cons y ys =>
    rcases List.mem_cons.mp h with h | h
    · subst h
      exact (foldl_min_le ys x).1
    · exact (foldl_min_le ys y).2 x h

theorem le_foldl_max (xs : List Nat) (a : Nat) :
    a ≤ xs.foldl Nat.max a ∧ ∀ x ∈ xs, x ≤ xs.foldl Nat.max a := by
  induction xs generalizing a with
  | nil => simp
  | cons y ys ih =>
    refine ⟨le_trans (Nat.le_max_left a y) (ih (Nat.max a y)).1, ?_⟩
    intro x hx
    rcases List.mem_cons.mp hx with h | h
    · subst h
      exact le_trans (Nat.le_max_right a x) (ih (Nat.max a x)).1
    · exact (ih (Nat.max a y)).2 x h

theorem le_colMax_mem (l : List Nat) (x : Nat) (h : x ∈ l) : x ≤ colMax l := by
  cases l with
  | nil => cases h
  | cons y ys =>
    rcases List.mem_cons.mp h with h | h
    · subst h
      exact (le_foldl_max ys x).1
    · exact (le_foldl_max ys y).2 x h

theorem length_mul_le_sum (l : List Nat) (m : Nat) (h : ∀ x ∈ l, m ≤ x) :
    l.length * m ≤ l.sum := by
  induction l with
  | nil => simp
  | cons y ys ih =>
    simp only [List.length_cons, List.sum_cons, Nat.succ_mul]
    have h1 : m ≤ y := h y (List.mem_cons_self y ys)
    have h2 : ys.length * m ≤ ys.sum := ih fun x hx => h x (List.mem_cons_of_mem y hx)
    omega

theorem sum_le_length_mul (l : List Nat) (M : Nat) (h : ∀ x ∈ l, x ≤ M) :
    l.sum ≤ l.length * M := by
  induction l with
  | nil => simp
  | cons y ys ih =>
    simp only [List.length_cons, List.sum_cons, Nat.succ_mul]
    have h1 : y ≤ M := h y (List.mem_cons_self y ys)
    have h2 : ys.sum ≤ ys.length * M := ih fun x hx => h x (List.mem_cons_of_mem y hx)
    omega

theorem mem_foldl_unique (l acc : List String) (x : String) :
    x ∈ l.foldl (fun acc y => if y ∈ acc then acc else acc ++ [y]) acc ↔
      x ∈ acc ∨ x ∈ l := by
  induction l generalizing acc with
  | nil => simp
  | cons y ys ih =>
    simp only [List.foldl_cons]
    by_cases hy : y ∈ acc
    · rw [if_pos hy, ih]
      constructor
      · rintro (h | h)
        · exact Or.inl h
        · exact Or.inr (List.mem_cons_of_mem y h)
      · rintro (h | h)
        · exact Or.inl h
        · rcases List.mem_cons.mp h with h | h
          · exact Or.inl (h ▸ hy)
          · exact Or.inr h
    · rw [if_neg hy, ih]
      simp only [List.mem_append, List.mem_singleton, List.mem_cons]
      tauto

theorem mem_pdUnique (l : List String) (x : String) :
    x ∈ pdUnique l ↔ x ∈ l := by
  rw [pdUnique, mem_foldl_unique]
  simp

end Helpers

/-- C1: for every raw length-of-stay value containing at least one digit
(possibly mixed with non-digit characters such as a `+` suffix or spaces),
the cleaning step strips all non-digit characters and parses the remaining
digits as the numeric length-of-stay; in particular cleaning `"5+"` yields
5 and cleaning `"120 +"` yields 120. -/
theorem C1_cleaning_strips_and_parses :
    (∀ s : String, s.data.any Char.isDigit = true →
      cleanValue s = some (parseDigits (keepDigits s)))
    ∧ cleanValue "5+" = some 5
    ∧ cleanValue "120 +" = some 120 :=
  ⟨fun s h => cleanValue_of_hasDigit s h, by decide, by decide⟩

/-- Witness for C1 at the concrete input `"7a"`. -/
theorem C1_witness :
    ("7a".data.any Char.isDigit = true)
    ∧ cleanValue "7a" = some (parseDigits (keepDigits "7a")) :=
  ⟨by decide, C1_cleaning_strips_and_parses.1 "7a" (by decide)⟩

/-- C8: cleaning is idempotent: the regex strip is idempotent on strings,
and re-cleaning an already-cleaned length-of-stay value (the pure digit
string left by the strip) yields the same numeric value. -/
theorem C8_cleaning_idempotent :
    (∀ s : String, keepDigits (keepDigits s) = keepDigits s)
    ∧ (∀ s : String, ∀ n : Nat, cleanValue s = some n →
        cleanValue (keepDigits s) = some n) :=
  ⟨keepDigits_idem, fun s _ h => (cleanValue_keepDigits s).trans h⟩

/-- Witness for C8 at the concrete input `"5+"` (cleans to 5). -/
theorem C8_witness : cleanValue (keepDigits "5+") = some 5 :=
  C8_cleaning_idempotent.2 "5+" 5 (by decide)

/-- C10: a row is retained by Load & Clean iff its raw length-of-stay
value contains at least one digit; when it does, the parsed value is the
base-10 reading of the digit characters in source order (`"1.5"` cleans
to 15), and a value with no digits (`"abc"`, the empty string, or a
missing cell rendered as `"nan"`) drops the row. -/
theorem C10_retention_iff_digit :
    (∀ r : RawRecord, ¬ r.lengthOfStay.data.any Char.isDigit = true →
      load_data [r] = [])
    ∧ (∀ r : RawRecord, r.lengthOfStay.data.any Char.isDigit = true →
      load_data [r] = [rebuilt r (parseDigits (keepDigits r.lengthOfStay))])
    ∧ cleanValue "1.5" = some 15
    ∧ cleanValue "abc" = none
    ∧ cleanValue "" = none
    ∧ cleanValue "nan" = none := by
  refine ⟨?_, ?_, by decide, by decide, by decide, by decide⟩
  · intro r h
    rw [load_data_eq_filterMap]
    simp [cleanValue_of_noDigit _ h]
  · intro r h
    rw [load_data_eq_filterMap]
    simp [cleanValue_of_hasDigit _ h]

/-- Witness for C10: a digit-free row is dropped, a row with digits is kept
with the concatenated-digit value. -/
theorem C10_witness :
    load_data [{ lengthOfStay := "abc", ageGroup := "A", gender := "F",
                 typeOfAdmission := "Elective" }] = []
    ∧ load_data [{ lengthOfStay := "1.5", ageGroup := "A", gender := "F",
                   typeOfAdmission := "Elective" }] =
        [{ lengthOfStay := 15, ageGroup := "A", gender := "F",
           typeOfAdmission := "Elective" }] :=
  ⟨C10_retention_iff_digit.1 _ (by decide),
   C10_retention_iff_digit.2.1
     { lengthOfStay := "1.5", ageGroup := "A", gender := "F",
       typeOfAdmission := "Elective" } (by decide)⟩

/-- C2: Load & Clean produces exactly the rows whose length-of-stay
coerces (rows failing coercion are removed entirely, never replaced by a
default), every record of the result carries the successfully parsed
numeric value of some source row, and the same holds in every filtered
view derived from the result. -/
theorem C2_cleaned_dataset_invariant (rows : List RawRecord) :
    load_data rows =
      rows.filterMap (fun r => (cleanValue r.lengthOfStay).map (rebuilt r))
    ∧ (∀ rec ∈ load_data rows, ∃ raw ∈ rows,
        cleanValue raw.lengthOfStay = some rec.lengthOfStay)
    ∧ (∀ lo hi : Nat, ∀ ags : List String,
        ∀ rec ∈ filtered_df (load_data rows) lo hi ags, ∃ raw ∈ rows,
          cleanValue raw.lengthOfStay = some rec.lengthOfStay) := by
  have hmem : ∀ rec ∈ load_data rows, ∃ raw ∈ rows,
      cleanValue raw.lengthOfStay = some rec.lengthOfStay := by
    intro rec hrec
    rw [load_data_eq_filterMap] at hrec
    rcases List.mem_filterMap.mp hrec with ⟨raw, hraw, heq⟩
    rcases Option.map_eq_some'.mp heq with ⟨v, hv, hre⟩
    refine ⟨raw, hraw, ?_⟩
    rw [hv, ← hre]
    rfl
  refine ⟨load_data_eq_filterMap rows, hmem, ?_⟩
  intro lo hi ags rec hrec
  exact hmem rec (List.mem_of_mem_filter hrec)

/-- Witness for C2 on a concrete two-row dataset. -/
theorem C2_witness :
    ∃ raw ∈ [{ lengthOfStay := "5+", ageGroup := "A", gender := "M",
               typeOfAdmission := "Emergency" : RawRecord },
             { lengthOfStay := "abc", ageGroup := "B", gender := "F",
               typeOfAdmission := "Elective" : RawRecord }],
      cleanValue raw.lengthOfStay =
        some ({ lengthOfStay := 5, ageGroup := "A", gender := "M",
                typeOfAdmission := "Emergency" : Record }).lengthOfStay :=
  (C2_cleaned_dataset_invariant _).2.1 _ (by decide)

/-- C9: Load & Clean modifies only the length-of-stay field: every
surviving record keeps the age group, gender and type-of-admission of the
source row whose length-of-stay cleaned to its numeric value, and the
surviving rows appear in source order (their projection to the untouched
columns is a sublist of the source projection). -/
theorem C9_load_clean_frame (rows : List RawRecord) :
    (∀ rec ∈ load_data rows, ∃ raw ∈ rows,
        rec.ageGroup = raw.ageGroup ∧ rec.gender = raw.gender ∧
        rec.typeOfAdmission = raw.typeOfAdmission ∧
        cleanValue raw.lengthOfStay = some rec.lengthOfStay)
    ∧ ((load_data rows).map projClean).Sublist (rows.map projRaw) := by
  constructor
  · intro rec hrec
    rw [load_data_eq_filterMap] at hrec
    rcases List.mem_filterMap.mp hrec with ⟨raw, hraw, heq⟩
    rcases Option.map_eq_some'.mp heq with ⟨v, hv, hre⟩
    subst hre
    exact ⟨raw, hraw, rfl, rfl, rfl, hv⟩
  · rw [load_data_eq_filterMap]
    exact map_filterMap_sublist _ projClean projRaw
      (by
        intro a b hab
        rcases Option.map_eq_some'.mp hab with ⟨v, _, hre⟩
        subst hre
        rfl) rows

/-- Witness for C9 on a concrete row: the untouched columns survive. -/
theorem C9_witness :
    ∃ raw ∈ exCsv.rows,
      exRecord.ageGroup = raw.ageGroup ∧ exRecord.gender = raw.gender ∧
      exRecord.typeOfAdmission = raw.typeOfAdmission ∧
      cleanValue raw.lengthOfStay = some exRecord.lengthOfStay :=
  (C9_load_clean_frame exCsv.rows).1 exRecord (by decide)

/-- C3: the Filter operation returns exactly the records whose age group
is in the accepted set and whose length-of-stay lies in `[lo, hi]` (both
endpoints included), preserves the source order, and is deterministic: any
run on equal inputs yields the same output. -/
theorem C3_filter_exact (df : List Record) (lo hi : Nat) (ags : List String) :
    (∀ r : Record, r ∈ filtered_df df lo hi ags ↔
      r ∈ df ∧ r.ageGroup ∈ ags ∧ lo ≤ r.lengthOfStay ∧ r.lengthOfStay ≤ hi)
    ∧ (filtered_df df lo hi ags).Sublist df
    ∧ (∀ df2 : List Record, ∀ lo2 hi2 : Nat, ∀ ags2 : List String,
        df2 = df → lo2 = lo → hi2 = hi → ags2 = ags →
        filtered_df df2 lo2 hi2 ags2 = filtered_df df lo hi ags) := by
  refine ⟨?_, List.filter_sublist df, ?_⟩
  · intro r
    rw [filtered_df, List.mem_filter]
    simp [betweenStay, List.contains_iff_exists_mem_beq, and_assoc, beq_iff_eq]
  · intro df2 lo2 hi2 ags2 h1 h2 h3 h4
    rw [h1, h2, h3, h4]

/-- Witness for C3: membership characterization and determinism at a
concrete dataset and criteria. -/
theorem C3_witness :
    (exRecord ∈ filtered_df [exRecord] 0 100 ["50 to 69"] ↔
      exRecord ∈ [exRecord] ∧ exRecord.ageGroup ∈ ["50 to 69"] ∧
      0 ≤ exRecord.lengthOfStay ∧ exRecord.lengthOfStay ≤ 100)
    ∧ filtered_df [exRecord] 0 100 ["50 to 69"] =
        filtered_df [exRecord] 0 100 ["50 to 69"] :=
  ⟨(C3_filter_exact [exRecord] 0 100 ["50 to 69"]).1 exRecord,
   (C3_filter_exact [exRecord] 0 100 ["50 to 69"]).2.2 _ _ _ _ rfl rfl rfl rfl⟩

/-- C4: the filtered view is always a sublist (hence subset) of the
Dataset, and filtering a non-empty Dataset with the full range
`[min stay, max stay]` together with all age-group labels occurring in it
returns the Dataset unchanged. -/
theorem C4_filter_subset_full (df : List Record) (lo hi : Nat)
    (ags : List String) :
    (filtered_df df lo hi ags).Sublist df
    ∧ (df ≠ [] →
        filtered_df df (colMin (stays df)) (colMax (stays df))
          (pdUnique (df.map Record.ageGroup)) = df) := by
  refine ⟨List.filter_sublist df, fun _ => ?_⟩
  rw [filtered_df, List.filter_eq_self]
  intro r hr
  have hage : r.ageGroup ∈ pdUnique (df.map Record.ageGroup) :=
    (mem_pdUnique _ _).mpr (List.mem_map_of_mem Record.ageGroup hr)
  have hstay : r.lengthOfStay ∈ stays df :=
    List.mem_map_of_mem Record.lengthOfStay hr
  have h1 : colMin (stays df) ≤ r.lengthOfStay := colMin_le_mem _ _ hstay
  have h2 : r.lengthOfStay ≤ colMax (stays df) := le_colMax_mem _ _ hstay
  have hc : (pdUnique (df.map Record.ageGroup)).contains r.ageGroup = true := by
    rw [List.contains_iff_exists_mem_beq]
    exact ⟨r.ageGroup, hage, by simp⟩
  simp only [betweenStay, hc, Bool.true_and, Bool.and_eq_true, decide_eq_true_eq]
  exact ⟨h1, h2⟩

/-- Witness for C4: full-range, full-category filtering of a concrete
non-empty dataset returns it unchanged. -/
theorem C4_witness :
    filtered_df [exRecord] (colMin (stays [exRecord]))
      (colMax (stays [exRecord]))
      (pdUnique ([exRecord].map Record.ageGroup)) = [exRecord] :=
  (C4_filter_subset_full [exRecord] 0 0 []).2 (by decide)

/-- C6: for every non-empty filtered view the arithmetic mean of the
length-of-stay values lies between the minimum and the maximum
length-of-stay of the view (inclusive); on the empty view the mean is
undefined (NaN, modelled as `none`). -/
theorem C6_mean_within_min_max (fdf : List Record) :
    (fdf ≠ [] → ∃ m : ℚ, meanStay fdf = some m ∧
      (colMin (stays fdf) : ℚ) ≤ m ∧ m ≤ (colMax (stays fdf) : ℚ))
    ∧ meanStay [] = none := by
  refine ⟨?_, rfl⟩
  intro h
  have hlen : 0 < fdf.length := List.length_pos.mpr h
  have hlenQ : (0 : ℚ) < (fdf.length : ℚ) := by exact_mod_cast hlen
  have hlenst : (stays fdf).length = fdf.length := by
    rw [stays, List.length_map]
  refine ⟨((stays fdf).sum : ℚ) / (fdf.length : ℚ), ?_, ?_, ?_⟩
  · rw [meanStay, if_neg (by omega)]
  · rw [le_div_iff₀ hlenQ]
    have hnat : (stays fdf).length * colMin (stays fdf) ≤ (stays fdf).sum :=
      length_mul_le_sum _ _ fun x hx => colMin_le_mem _ x hx
    rw [hlenst, Nat.mul_comm] at hnat
    exact_mod_cast hnat
  · rw [div_le_iff₀ hlenQ]
    have hnat : (stays fdf).sum ≤ (stays fdf).length * colMax (stays fdf) :=
      sum_le_length_mul _ _ fun x hx => le_colMax_mem _ x hx
    rw [hlenst, Nat.mul_comm] at hnat
    exact_mod_cast hnat

/-- Witness for C6 on a concrete two-record view (stays 4 and 10). -/
theorem C6_witness :
    ∃ m : ℚ,
      meanStay [{ lengthOfStay := 4, ageGroup := "A", gender := "F",
                  typeOfAdmission := "Urgent" : Record },
                { lengthOfStay := 10, ageGroup := "B", gender := "M",
                  typeOfAdmission := "Urgent" : Record }] = some m ∧
      (colMin (stays [{ lengthOfStay := 4, ageGroup := "A", gender := "F",
                        typeOfAdmission := "Urgent" : Record },
                      { lengthOfStay := 10, ageGroup := "B", gender := "M",
                        typeOfAdmission := "Urgent" : Record }]) : ℚ) ≤ m ∧
      m ≤ (colMax (stays [{ lengthOfStay := 4, ageGroup := "A", gender := "F",
                            typeOfAdmission := "Urgent" : Record },
                          { lengthOfStay := 10, ageGroup := "B", gender := "M",
                            typeOfAdmission := "Urgent" : Record }]) : ℚ) :=
  (C6_mean_within_min_max _).1 (by decide)

/-- C7: for every non-empty Dataset the percentage metric equals
filtered count over total count times 100 and lies in `[0, 100]`. -/
theorem C7_percentage_bounds (df : List Record) (lo hi : Nat)
    (ags : List String) (h : df ≠ []) :
    pct (filtered_df df lo hi ags) df =
      ((filtered_df df lo hi ags).length : ℚ) / (df.length : ℚ) * 100
    ∧ 0 ≤ pct (filtered_df df lo hi ags) df
    ∧ pct (filtered_df df lo hi ags) df ≤ 100 := by
  have hlen : 0 < df.length := List.length_pos.mpr h
  have hlenQ : (0 : ℚ) < (df.length : ℚ) := by exact_mod_cast hlen
  have hle : (filtered_df df lo hi ags).length ≤ df.length :=
    (List.filter_sublist df).length_le
  have hdiv : ((filtered_df df lo hi ags).length : ℚ) / (df.length : ℚ) ≤ 1 :=
    (div_le_one hlenQ).mpr (by exact_mod_cast hle)
  have hnn : (0 : ℚ) ≤ ((filtered_df df lo hi ags).length : ℚ) / (df.length : ℚ) :=
    div_nonneg (by positivity) (le_of_lt hlenQ)
  refine ⟨rfl, ?_, ?_⟩
  · show (0 : ℚ) ≤ ((filtered_df df lo hi ags).length : ℚ) / (df.length : ℚ) * 100
    positivity
  · show ((filtered_df df lo hi ags).length : ℚ) / (df.length : ℚ) * 100 ≤ 100
    nlinarith [hdiv, hnn]

/-- Witness for C7 on `[exRecord]` with an empty age selection. -/
theorem C7_witness :
    pct (filtered_df [exRecord] 0 100 []) [exRecord] =
      ((filtered_df [exRecord] 0 100 []).length : ℚ) /
        (([exRecord] : List Record).length : ℚ) * 100
    ∧ 0 ≤ pct (filtered_df [exRecord] 0 100 []) [exRecord]
    ∧ pct (filtered_df [exRecord] 0 100 []) [exRecord] ≤ 100 :=
  C7_percentage_bounds [exRecord] 0 100 [] (by decide)

/-- C5 (amended): a run fails with a single descriptive error message and
no retry exactly when the source file is missing, one of the expected
columns is absent, or no row survives cleaning; otherwise the run
succeeds and renders the metrics — in particular an aggregate over an
empty filtered view is not an error (its mean is NaN, rendered silently). -/
theorem C5_error_single_message (file : Option Csv) (lo hi : Nat)
    (ags : List String) :
    ((∃ e : String, runApp file lo hi ags = Except.error e) ↔
      (file = none ∨ ∃ csv : Csv, file = some csv ∧
        ("Length of Stay" ∉ csv.columns ∨ load_data csv.rows = [] ∨
         "Age Group" ∉ csv.columns ∨ "Type of Admission" ∉ csv.columns ∨
         "Gender" ∉ csv.columns)))
    ∧ (∀ csv : Csv, file = some csv → "Length of Stay" ∈ csv.columns →
        "Age Group" ∈ csv.columns → "Type of Admission" ∈ csv.columns →
        "Gender" ∈ csv.columns → load_data csv.rows ≠ [] →
        runApp file lo hi ags = Except.ok
          { avgStay := meanStay (filtered_df (load_data csv.rows) lo hi ags)
            longStays := long_stays (filtered_df (load_data csv.rows) lo hi ags)
            totalRecords := (filtered_df (load_data csv.rows) lo hi ags).length
            pctOfTotal := pct (filtered_df (load_data csv.rows) lo hi ags)
              (load_data csv.rows) }) := by
  cases file with
  | none =>
    refine ⟨⟨fun _ => Or.inl rfl, fun _ => ⟨_, rfl⟩⟩, ?_⟩
    intro csv hcsv
    exact Option.noConfusion hcsv
  | some csv =>
    have hrhs : (some csv = none ∨ ∃ c : Csv, some csv = some c ∧
        ("Length of Stay" ∉ c.columns ∨ load_data c.rows = [] ∨
         "Age Group" ∉ c.columns ∨ "Type of Admission" ∉ c.columns ∨
         "Gender" ∉ c.columns)) ↔
        ("Length of Stay" ∉ csv.columns ∨ load_data csv.rows = [] ∨
         "Age Group" ∉ csv.columns ∨ "Type of Admission" ∉ csv.columns ∨
         "Gender" ∉ csv.columns) := by
      simp
    rw [hrhs]
    simp only [runApp]
    by_cases h1 : "Length of Stay" ∈ csv.columns
    · rw [if_pos h1]
      by_cases h2 : (load_data csv.rows).length = 0
      · rw [if_pos h2]
        have h2' : load_data csv.rows = [] := List.length_eq_zero.mp h2
        refine ⟨⟨fun _ => Or.inr (Or.inl h2'), fun _ => ⟨_, rfl⟩⟩, ?_⟩
        intro c hc _ _ _ _ hne
        cases Option.some.injEq .. ▸ hc
        exact absurd h2' hne
      · rw [if_neg h2]
        have h2' : load_data csv.rows ≠ [] := fun hnil => h2 (by rw [hnil]; rfl)
        by_cases h3 : "Age Group" ∈ csv.columns
        · rw [if_pos h3]
          by_cases h4 : "Type of Admission" ∈ csv.columns
          · rw [if_pos h4]
            by_cases h5 : "Gender" ∈ csv.columns
            · rw [if_pos h5]
              constructor
              · constructor
                · rintro ⟨e, he⟩
                  exact Except.noConfusion he
                · rintro (hc | hc | hc | hc | hc) <;>
                    first
                      | exact absurd h1 hc
                      | exact absurd hc h2'
                      | exact absurd h3 hc
                      | exact absurd h4 hc
                      | exact absurd h5 hc
              · intro c hc _ _ _ _ _
                cases hc
                rfl
            · rw [if_neg h5]
              refine ⟨⟨fun _ => Or.inr (Or.inr (Or.inr (Or.inr h5))),
                fun _ => ⟨_, rfl⟩⟩, ?_⟩
              intro c hc _ _ _ hg _
              cases hc
              exact absurd hg h5
          · rw [if_neg h4]
            refine ⟨⟨fun _ => Or.inr (Or.inr (Or.inr (Or.inl h4))),
              fun _ => ⟨_, rfl⟩⟩, ?_⟩
            intro c hc _ _ ht _ _
            cases hc
            exact absurd ht h4
        · rw [if_neg h3]
          refine ⟨⟨fun _ => Or.inr (Or.inr (Or.inl h3)),
            fun _ => ⟨_, rfl⟩⟩, ?_⟩
          intro c hc _ ha _ _ _
          cases hc
          exact absurd ha h3
    · rw [if_neg h1]
      refine ⟨⟨fun _ => Or.inl h1, fun _ => ⟨_, rfl⟩⟩, ?_⟩
      intro c hc hl _ _ _ _
      cases hc
      exact absurd hl h1

/-- Witness for C5: a well-formed CSV with a surviving row runs to
success and renders its metrics. -/
theorem C5_witness :
    runApp (some exCsv) 0 100 ["50 to 69"] = Except.ok
      { avgStay := meanStay (filtered_df (load_data exCsv.rows) 0 100 ["50 to 69"])
        longStays := long_stays (filtered_df (load_data exCsv.rows) 0 100 ["50 to 69"])
        totalRecords := (filtered_df (load_data exCsv.rows) 0 100 ["50 to 69"]).length
        pctOfTotal := pct (filtered_df (load_data exCsv.rows) 0 100 ["50 to 69"])
          (load_data exCsv.rows) } :=
  (C5_error_single_message (some exCsv) 0 100 ["50 to 69"]).2 exCsv rfl
    (by decide) (by decide) (by decide) (by decide) (by decide)

/-- On the concrete CSV `exCsv` with an empty age selection, the app
reaches the success branch and renders the metrics. -/
theorem runApp_ok_exCsv :
    runApp (some exCsv) 0 100 [] = Except.ok
      { avgStay := meanStay (filtered_df (load_data exCsv.rows) 0 100 [])
        longStays := long_stays (filtered_df (load_data exCsv.rows) 0 100 [])
        totalRecords := (filtered_df (load_data exCsv.rows) 0 100 []).length
        pctOfTotal := pct (filtered_df (load_data exCsv.rows) 0 100 [])
          (load_data exCsv.rows) } := by
  simp only [runApp]
  rw [if_pos (by decide), if_neg (by decide), if_pos (by decide),
    if_pos (by decide), if_pos (by decide)]

/-- C5 counterexample: with a well-formed CSV and an empty age-group
selection the filtered view is empty, yet the run succeeds — the mean over
zero rows is NaN (`none`) and is rendered silently, so an aggregate on an
empty filtered view does not surface as an error message, contradicting
the claim as stated. -/
theorem C5_counterexample :
    filtered_df (load_data exCsv.rows) 0 100 [] = []
    ∧ meanStay (filtered_df (load_data exCsv.rows) 0 100 []) = none
    ∧ ∀ e : String, runApp (some exCsv) 0 100 [] ≠ Except.error e := by
  refine ⟨by decide, by decide, ?_⟩
  intro e he
  rw [runApp_ok_exCsv] at he
  exact Except.noConfusion he

end HospitalStay
